import Mathlib

/-!
Verification of the matrix-to-solid geometry synthesis and binary mesh
export pipeline of the 3d-qr-code-generator repository (src/src/main.ts,
with src/main.js a duplicate language variant of the same logic).

The embedding models:

* `ModuleGrid` — the boolean module matrix produced by the external
  encoder (`qr.size`, `qr.getModule x y`);
* `Solid` — an axis-aligned box with center, extents and a material tag,
  the neutral record the spec's `GeometryBuilder` produces; the three.js
  `Mesh`/`BoxGeometry` objects built in `drawBarcodeModule` and
  `drawBarcodeBackground` are read off as such records;
* `drawBarcodeWith` — the body of `ThreeDScene.drawBarcode`
  (src/src/main.ts lines 100-131), with the module-level constants
  `barcodeSizeMm`, `qrThicknessMm`, `baseThicknessMm` lambda-lifted into
  parameters (the source reads them as globals; `drawBarcode` below
  re-specializes them to the source's constant values).  The nested
  `for y / for x / if getModule` loop that adds cubes to `qrGroup`
  becomes a `List.range`-bind producing the same solids in the same
  order; the `throw new RangeError("Value out of range")` becomes an
  `Except.error`;
* `getWifiEasyConnectUri` — the payload assembler (lines 185-200), with
  `FormData` modelled as an association list and JavaScript's
  null/empty-string falsiness made explicit;
* the binary STL serialization (`exportAsSTL`, line 150-155, delegates
  to three.js's `STLExporter` whose source is not part of this
  repository; it is modelled from the spec's binary serialization
  contract in §4.3).

Numbers are modelled as rationals: every arithmetic expression the
claims mention is computed by the source as the same expression, so the
exact-arithmetic model is faithful for the stated properties.
-/

/-- The boolean module matrix: `size × size`, `getModule x y` is the
module at column `x`, row `y` (the source's `qr.getModule(x, y)`). -/
structure ModuleGrid where
  size : ℕ
  getModule : ℕ → ℕ → Bool

/-- Material tag of a produced solid: dark module cube vs. the white
base plate (`0x404040` vs `0xffffff` material in the source). -/
inductive Tag where
  | ModuleDark : Tag
  | BasePlateLight : Tag
deriving DecidableEq, Repr

/-- An axis-aligned rectangular solid: center `(cx, cy, cz)` in mm,
extents `(w, d, h)` (x-width, y-depth, z-height), material tag. -/
structure Solid where
  cx : ℚ
  cy : ℚ
  cz : ℚ
  w : ℚ
  d : ℚ
  h : ℚ
  tag : Tag
deriving DecidableEq, Repr

/-- Error taxonomy of the spec: `InvalidParameter` is the source's
`RangeError` (geometry precondition), `EncodingFailed` the external
encoder rejecting a payload. -/
inductive Err where
  | InvalidParameter : String → Err
  | EncodingFailed : String → Err
deriving DecidableEq, Repr

/-- src/src/main.ts line 8: `const barcodeSizeMm = 80`. -/
def barcodeSizeMm : ℚ := 80

/-- src/src/main.ts line 9: `const baseThicknessMm = 5`. -/
def baseThicknessMm : ℚ := 5

/-- src/src/main.ts line 10: `const qrThicknessMm = 2`. -/
def qrThicknessMm : ℚ := 2

/-- src/src/main.ts line 11: `const qrBorderMm = 5`. -/
def qrBorderMm : ℚ := 5

/-- `drawBarcodeModule (x, y, size, thickness)` (lines 80-88): a
`BoxGeometry(size, size, thickness)` mesh positioned at
`(x, -y, thickness / 2)`, dark material. -/
def drawBarcodeModule (x y size thickness : ℚ) : Solid :=
  { cx := x, cy := -y, cz := thickness / 2
    w := size, d := size, h := thickness, tag := Tag.ModuleDark }

/-- `drawBarcodeBackground (height, width, thickness)` (lines 90-98): a
`BoxGeometry(height, width, thickness)` mesh positioned at
`(0, 0, -thickness / 2)`, white material. -/
def drawBarcodeBackground (height width thickness : ℚ) : Solid :=
  { cx := 0, cy := 0, cz := -(thickness / 2)
    w := height, d := width, h := thickness, tag := Tag.BasePlateLight }

/-- The solid added for the module at grid coordinate `(x, y)`: the
`drawBarcodeModule` call of `drawBarcode` (lines 116-121), with
`scale = barcodeSizeMm / qr.size` (line 109) and
`barcodeSize = qr.size * scale` (line 111). -/
def mkModule (footprintSizeMm moduleThicknessMm : ℚ) (qr : ModuleGrid)
    (x y : ℕ) : Solid :=
  let scale := footprintSizeMm / (qr.size : ℚ)
  let barcodeSize := (qr.size : ℚ) * scale
  drawBarcodeModule
    ((x : ℚ) * scale - barcodeSize / 2 + scale / 2)
    ((y : ℚ) * scale - barcodeSize / 2 + scale / 2)
    scale moduleThicknessMm

/-- The nested module loop of `drawBarcode` (lines 113-124): for each
`y < qr.size`, for each `x < qr.size`, if `qr.getModule(x, y)` then add
the module cube.  The cubes are appended to `qrGroup` in that loop
order. -/
def moduleLoop (footprintSizeMm moduleThicknessMm : ℚ) (qr : ModuleGrid) :
    List Solid :=
  (List.range qr.size).flatMap (fun y =>
    (List.range qr.size).flatMap (fun x =>
      if qr.getModule x y then
        [mkModule footprintSizeMm moduleThicknessMm qr x y]
      else []))

/-- `ThreeDScene.drawBarcode (qr, border)` (lines 100-131), with the
globals `barcodeSizeMm`, `qrThicknessMm`, `baseThicknessMm`
lambda-lifted into the first three parameters.  `border <= 0` throws
`RangeError("Value out of range")`; otherwise the fresh `qrGroup`
receives the module cubes in loop order followed by the background
plate `drawBarcodeBackground(barcodeSizeMm + border*2,
barcodeSizeMm + border*2, baseThicknessMm)`. -/
def drawBarcodeWith (footprintSizeMm moduleThicknessMm baseThMm : ℚ)
    (qr : ModuleGrid) (border : ℚ) : Except Err (List Solid) :=
  if border ≤ 0 then
    Except.error (Err.InvalidParameter "Value out of range")
  else
    Except.ok (moduleLoop footprintSizeMm moduleThicknessMm qr ++
      [drawBarcodeBackground (footprintSizeMm + border * 2)
        (footprintSizeMm + border * 2) baseThMm])

/-- `drawBarcode` exactly as in the source: the three globals at their
constant values. -/
def drawBarcode (qr : ModuleGrid) (border : ℚ) : Except Err (List Solid) :=
  drawBarcodeWith barcodeSizeMm qrThicknessMm baseThicknessMm qr border

/-- Number of true-valued modules in the grid. -/
def trueCount (qr : ModuleGrid) : ℕ :=
  ((List.range qr.size).map (fun y =>
    ((List.range qr.size).filter (fun x => qr.getModule x y)).length)).sum

/-- Row-major enumeration of all grid coordinates as `(y, x)` pairs:
the iteration order of the nested `for y / for x` loop. -/
def rowMajorPairs (n : ℕ) : List (ℕ × ℕ) :=
  (List.range n).flatMap (fun y => (List.range n).map (fun x => (y, x)))

/-- Two solids' footprints do not overlap volumetrically: their open
x-intervals or their open y-intervals are disjoint (sharing an edge is
allowed). -/
def footprintDisjoint (a b : Solid) : Prop :=
  (a.w + b.w) / 2 ≤ |a.cx - b.cx| ∨ (a.d + b.d) / 2 ≤ |a.cy - b.cy|

/-- Solid `a`'s footprint lies entirely within solid `b`'s footprint. -/
def footprintWithin (a b : Solid) : Prop :=
  b.cx - b.w / 2 ≤ a.cx - a.w / 2 ∧ a.cx + a.w / 2 ≤ b.cx + b.w / 2 ∧
  b.cy - b.d / 2 ≤ a.cy - a.d / 2 ∧ a.cy + a.d / 2 ≤ b.cy + b.d / 2

/-! ### Scene-replacement semantics (drawBarcode acting on the live group)

`drawBarcode` mutates `this.qrGroup`; the `border <= 0` throw (line 101)
happens before `this.scene.remove(this.qrGroup)` (line 105), so a failing
call leaves the installed group untouched, while a successful call
replaces it wholesale. -/

/-- `drawBarcode` as a transition on the installed solid group: result
state plus the error thrown, if any. -/
def drawBarcodeStep (st : List Solid) (qr : ModuleGrid) (border : ℚ) :
    List Solid × Option Err :=
  if border ≤ 0 then
    (st, some (Err.InvalidParameter "Value out of range"))
  else
    (moduleLoop barcodeSizeMm qrThicknessMm qr ++
      [drawBarcodeBackground (barcodeSizeMm + border * 2)
        (barcodeSizeMm + border * 2) baseThicknessMm], none)

/-- The form-submit handler (lines 215-229) as a transition on the
installed solid group: the payload is encoded (`generateQrCode`, an
external collaborator returning either a grid or an `EncodingFailed`
error), and only on success is `drawBarcode(qr, qrBorderMm)` reached —
an encoder throw propagates out before any scene mutation. -/
def submitStep (st : List Solid) (encoded : Except Err ModuleGrid) :
    List Solid × Option Err :=
  match encoded with
  | Except.error e => (st, some e)
  | Except.ok qr => drawBarcodeStep st qr qrBorderMm

/-! ### Payload assembly (`getWifiEasyConnectUri`, lines 185-200) -/

/-- `FormData.get`: the value of the first entry with the given key, or
null (`none`) when absent. -/
def fdGet (data : List (String × String)) (key : String) : Option String :=
  (data.find? (fun p => p.1 == key)).map (fun p => p.2)

/-- JavaScript template-literal interpolation of a possibly-null value:
`null` prints as the string `"null"`. -/
def jsTemplate (o : Option String) : String :=
  match o with
  | none => "null"
  | some s => s

/-- JavaScript truthiness of a string-or-null: `null` and the empty
string are falsy, every other string is truthy. -/
def jsTruthy (o : Option String) : Bool :=
  match o with
  | none => false
  | some s => !(s == "")

/-- `data.get('security') || 'none'`: the JavaScript `||` default,
replacing a falsy value (null or empty string) by `'none'`. -/
def jsOrNone (o : Option String) : String :=
  match o with
  | none => "none"
  | some s => if s == "" then "none" else s

/-- JavaScript `Array.prototype.join(sep)`. -/
def joinSep (sep : String) : List String → String
  | [] => ""
  | [a] => a
  | a :: b :: rest => a ++ sep ++ joinSep sep (b :: rest)

/-- `getWifiEasyConnectUri(data)` (lines 185-200): start from the
required `S:` segment, append `T:`/`P:` when the (defaulted) security is
not `'none'`, append the literal `H:true` when `data.get('hidden')` is
truthy, and join with `';'` after the `WIFI:` prefix. -/
def getWifiEasyConnectUri (data : List (String × String)) : String :=
  let parts := ["S:" ++ jsTemplate (fdGet data "ssid")]
  let parts :=
    if jsOrNone (fdGet data "security") ≠ "none" then
      parts ++ ["T:" ++ jsTemplate (fdGet data "security"),
                "P:" ++ jsTemplate (fdGet data "password")]
    else parts
  let parts :=
    if jsTruthy (fdGet data "hidden") then parts ++ ["H:true"] else parts
  "WIFI:" ++ joinSep ";" parts

/-! ### Binary STL export

`exportAsSTL` (lines 150-155) delegates to three.js's `STLExporter`
with `{ binary: true }`; that exporter's source is not part of this
repository, so the serializer is modelled from the spec's binary
serialization contract (§4.3). -/

/-- A 3D vector of rationals. -/
structure Vec3 where
  x : ℚ
  y : ℚ
  z : ℚ
deriving DecidableEq, Repr

/-- A mesh triangle: face normal plus three vertices. -/
structure Triangle where
  n : Vec3
  v1 : Vec3
  v2 : Vec3
  v3 : Vec3
deriving DecidableEq, Repr

/-- Modelled from the spec: each Solid contributes its 6 faces in the
canonical order -X, +X, -Y, +Y, -Z, +Z, each face as 2 triangles with a
precomputed outward face normal (spec §4.3; the three.js `STLExporter`
implementing this is not in the repository sources). -/
def solidTriangles (s : Solid) : List Triangle :=
  let x0 := s.cx - s.w / 2
  let x1 := s.cx + s.w / 2
  let y0 := s.cy - s.d / 2
  let y1 := s.cy + s.d / 2
  let z0 := s.cz - s.h / 2
  let z1 := s.cz + s.h / 2
  [ -- -X face
    ⟨⟨-1, 0, 0⟩, ⟨x0, y0, z0⟩, ⟨x0, y1, z0⟩, ⟨x0, y1, z1⟩⟩,
    ⟨⟨-1, 0, 0⟩, ⟨x0, y0, z0⟩, ⟨x0, y1, z1⟩, ⟨x0, y0, z1⟩⟩,
    -- +X face
    ⟨⟨1, 0, 0⟩, ⟨x1, y0, z0⟩, ⟨x1, y1, z1⟩, ⟨x1, y1, z0⟩⟩,
    ⟨⟨1, 0, 0⟩, ⟨x1, y0, z0⟩, ⟨x1, y0, z1⟩, ⟨x1, y1, z1⟩⟩,
    -- -Y face
    ⟨⟨0, -1, 0⟩, ⟨x0, y0, z0⟩, ⟨x1, y0, z1⟩, ⟨x1, y0, z0⟩⟩,
    ⟨⟨0, -1, 0⟩, ⟨x0, y0, z0⟩, ⟨x0, y0, z1⟩, ⟨x1, y0, z1⟩⟩,
    -- +Y face
    ⟨⟨0, 1, 0⟩, ⟨x0, y1, z0⟩, ⟨x1, y1, z0⟩, ⟨x1, y1, z1⟩⟩,
    ⟨⟨0, 1, 0⟩, ⟨x0, y1, z0⟩, ⟨x1, y1, z1⟩, ⟨x0, y1, z1⟩⟩,
    -- -Z face
    ⟨⟨0, 0, -1⟩, ⟨x0, y0, z0⟩, ⟨x1, y1, z0⟩, ⟨x0, y1, z0⟩⟩,
    ⟨⟨0, 0, -1⟩, ⟨x0, y0, z0⟩, ⟨x1, y0, z0⟩, ⟨x1, y1, z0⟩⟩,
    -- +Z face
    ⟨⟨0, 0, 1⟩, ⟨x0, y0, z1⟩, ⟨x0, y1, z1⟩, ⟨x1, y1, z1⟩⟩,
    ⟨⟨0, 0, 1⟩, ⟨x0, y0, z1⟩, ⟨x1, y1, z1⟩, ⟨x1, y0, z1⟩⟩ ]

/-- `k` little-endian base-256 bytes of `n`. -/
def leBytes : ℕ → ℕ → List ℕ
  | 0, _ => []
  | k + 1, n => n % 256 :: leBytes k (n / 256)

/-- Decode a little-endian base-256 byte list. -/
def leDecode (bs : List ℕ) : ℕ :=
  bs.foldr (fun b acc => b + 256 * acc) 0

/-- The 12 bytes of a vector under a 4-byte-per-float encoding `enc`. -/
def vecBytes (enc : ℚ → List ℕ) (v : Vec3) : List ℕ :=
  enc v.x ++ enc v.y ++ enc v.z

/-- Modelled from the spec: one 50-byte triangle record — 12 four-byte
little-endian IEEE-754 floats (normal then the three vertices) followed
by 2 reserved zero bytes (spec §4.3).  The IEEE-754 bit pattern of a
single float is abstracted as a parameter `enc` producing 4 bytes. -/
def triangleBytes (enc : ℚ → List ℕ) (t : Triangle) : List ℕ :=
  vecBytes enc t.n ++ vecBytes enc t.v1 ++ vecBytes enc t.v2 ++
    vecBytes enc t.v3 ++ [0, 0]

/-- Modelled from the spec: the binary STL byte stream — an 80-byte
zero-filled header, the 4-byte little-endian triangle count, then one
50-byte record per triangle in emission order (spec §4.3). -/
def exportSTL (enc : ℚ → List ℕ) (solids : List Solid) : List ℕ :=
  let tris := solids.flatMap solidTriangles
  List.replicate 80 0 ++ leBytes 4 tris.length ++
    tris.flatMap (triangleBytes enc)

/-! ### Helper lemmas -/

theorem flatMap_ite_singleton {α β : Type} (l : List α) (c : α → Bool)
    (f : α → β) :
    l.flatMap (fun x => if c x then [f x] else []) = (l.filter c).map f := by
  induction l with
  | nil => rfl
  | cons a t ih =>
    by_cases h : c a = true
    · simp [List.flatMap_cons, List.filter_cons, h, ih]
    · simp only [Bool.not_eq_true] at h
      simp [List.flatMap_cons, List.filter_cons, h, ih]

theorem mem_ite_singleton {α : Type} {s a : α} {c : Bool} :
    s ∈ (if c then [a] else []) ↔ c = true ∧ s = a := by
  cases c <;> simp

theorem mem_moduleLoop {fp th : ℚ} {qr : ModuleGrid} {s : Solid} :
    s ∈ moduleLoop fp th qr ↔
      ∃ x y, x < qr.size ∧ y < qr.size ∧ qr.getModule x y = true ∧
        s = mkModule fp th qr x y := by
  simp only [moduleLoop, List.mem_flatMap, List.mem_range, mem_ite_singleton]
  constructor
  · rintro ⟨y, hy, x, hx, hm, hs⟩
    exact ⟨x, y, hx, hy, hm, hs⟩
  · rintro ⟨x, y, hx, hy, hm, hs⟩
    exact ⟨y, hy, x, hx, hm, hs⟩

theorem scale_ne_zero {fp : ℚ} {n : ℕ} (hfp : fp ≠ 0) (hn : n ≠ 0) :
    fp / (n : ℚ) ≠ 0 := by
  have : (n : ℚ) ≠ 0 := Nat.cast_ne_zero.mpr hn
  exact div_ne_zero hfp this

theorem mkModule_inj {fp th : ℚ} {qr : ModuleGrid}
    (hfp : fp ≠ 0) (hsz : qr.size ≠ 0) {x₁ y₁ x₂ y₂ : ℕ}
    (h : mkModule fp th qr x₁ y₁ = mkModule fp th qr x₂ y₂) :
    x₁ = x₂ ∧ y₁ = y₂ := by
  have hs : fp / (qr.size : ℚ) ≠ 0 := scale_ne_zero hfp hsz
  have hcx := congrArg Solid.cx h
  have hcy := congrArg Solid.cy h
  simp only [mkModule, drawBarcodeModule] at hcx hcy
  constructor
  · have hx : (x₁ : ℚ) * (fp / (qr.size : ℚ)) = (x₂ : ℚ) * (fp / (qr.size : ℚ)) := by
      linarith
    exact Nat.cast_injective (mul_right_cancel₀ hs hx)
  · have hy : (y₁ : ℚ) * (fp / (qr.size : ℚ)) = (y₂ : ℚ) * (fp / (qr.size : ℚ)) := by
      have := neg_injective hcy
      linarith
    exact Nat.cast_injective (mul_right_cancel₀ hs hy)

theorem moduleLoop_pairwise {fp th : ℚ} {qr : ModuleGrid}
    {R : Solid → Solid → Prop}
    (h : ∀ x₁ y₁ x₂ y₂, x₁ < qr.size → y₁ < qr.size → x₂ < qr.size →
      y₂ < qr.size → ¬(x₁ = x₂ ∧ y₁ = y₂) →
      R (mkModule fp th qr x₁ y₁) (mkModule fp th qr x₂ y₂)) :
    List.Pairwise R (moduleLoop fp th qr) := by
  rw [moduleLoop, List.pairwise_flatMap]
  constructor
  · intro y hy
    rw [List.pairwise_flatMap]
    constructor
    · intro x _
      split
      · exact List.pairwise_singleton _ _
      · exact List.Pairwise.nil
    · refine (List.pairwise_lt_range _).imp_of_mem ?_
      intro x₁ x₂ hm₁ hm₂ hxlt s₁ hs₁ s₂ hs₂
      rw [mem_ite_singleton] at hs₁ hs₂
      rw [List.mem_range] at hy hm₁ hm₂
      rw [hs₁.2, hs₂.2]
      exact h x₁ y x₂ y hm₁ hy hm₂ hy (fun hc => (Nat.ne_of_lt hxlt) hc.1)
  · refine (List.pairwise_lt_range _).imp_of_mem ?_
    intro y₁ y₂ hm₁ hm₂ hylt s₁ hs₁ s₂ hs₂
    rw [List.mem_flatMap] at hs₁ hs₂
    obtain ⟨x₁, hx₁, hss₁⟩ := hs₁
    obtain ⟨x₂, hx₂, hss₂⟩ := hs₂
    rw [mem_ite_singleton] at hss₁ hss₂
    rw [List.mem_range] at hm₁ hm₂ hx₁ hx₂
    rw [hss₁.2, hss₂.2]
    exact h x₁ y₁ x₂ y₂ hx₁ hm₁ hx₂ hm₂ (fun hc => (Nat.ne_of_lt hylt) hc.2)

theorem moduleLoop_nodup {fp th : ℚ} {qr : ModuleGrid}
    (hfp : fp ≠ 0) (hsz : qr.size ≠ 0) :
    (moduleLoop fp th qr).Nodup := by
  refine moduleLoop_pairwise ?_
  intro x₁ y₁ x₂ y₂ _ _ _ _ hne heq
  exact hne (mkModule_inj hfp hsz heq)

theorem moduleLoop_length {fp th : ℚ} {qr : ModuleGrid} :
    (moduleLoop fp th qr).length = trueCount qr := by
  rw [moduleLoop, trueCount, List.length_flatMap]
  congr 1
  refine List.map_congr_left ?_
  intro y _
  simp only [Function.comp_apply]
  rw [flatMap_ite_singleton, List.length_map]

theorem moduleLoop_eq_rowMajor_aux {fp th : ℚ} {qr : ModuleGrid}
    (l : List ℕ) :
    (l.flatMap fun y => (List.range qr.size).flatMap fun x =>
        if qr.getModule x y then [mkModule fp th qr x y] else []) =
      ((l.flatMap fun y =>
          (List.range qr.size).map fun x => (y, x)).filter
        (fun p => qr.getModule p.2 p.1)).map
        (fun p => mkModule fp th qr p.2 p.1) := by
  induction l with
  | nil => rfl
  | cons y t ih =>
    rw [List.flatMap_cons, List.flatMap_cons, List.filter_append,
      List.map_append, ih]
    congr 1
    rw [flatMap_ite_singleton, List.filter_map, List.map_map]
    rfl

theorem moduleLoop_eq_rowMajor {fp th : ℚ} {qr : ModuleGrid} :
    moduleLoop fp th qr =
      ((rowMajorPairs qr.size).filter (fun p => qr.getModule p.2 p.1)).map
        (fun p => mkModule fp th qr p.2 p.1) := by
  rw [moduleLoop, rowMajorPairs]
  exact moduleLoop_eq_rowMajor_aux (List.range qr.size)

theorem solidTriangles_length (s : Solid) : (solidTriangles s).length = 12 :=
  rfl

theorem flatMap_solidTriangles_length (solids : List Solid) :
    (solids.flatMap solidTriangles).length = 12 * solids.length := by
  induction solids with
  | nil => rfl
  | cons s t ih =>
    rw [List.flatMap_cons, List.length_append, ih, solidTriangles_length,
      List.length_cons]
    ring

theorem triangleBytes_length {enc : ℚ → List ℕ}
    (henc : ∀ q, (enc q).length = 4) (t : Triangle) :
    (triangleBytes enc t).length = 50 := by
  simp [triangleBytes, vecBytes, henc]

theorem flatMap_triangleBytes_length {enc : ℚ → List ℕ}
    (henc : ∀ q, (enc q).length = 4) (tris : List Triangle) :
    (tris.flatMap (triangleBytes enc)).length = 50 * tris.length := by
  induction tris with
  | nil => rfl
  | cons t ts ih =>
    rw [List.flatMap_cons, List.length_append, ih,
      triangleBytes_length henc, List.length_cons]
    ring

theorem leBytes_length (k n : ℕ) : (leBytes k n).length = k := by
  induction k generalizing n with
  | zero => rfl
  | succ k ih => simp [leBytes, ih]

theorem leDecode_cons (b : ℕ) (bs : List ℕ) :
    leDecode (b :: bs) = b + 256 * leDecode bs := rfl

theorem leDecode_leBytes (k n : ℕ) : leDecode (leBytes k n) = n % 256 ^ k := by
  induction k generalizing n with
  | zero => simp [leBytes, leDecode, Nat.mod_one]
  | succ k ih =>
    rw [leBytes, leDecode_cons, ih, pow_succ, mul_comm (256 ^ k) 256]
    exact (Nat.mod_mul).symm

theorem joinSep_append_singleton (sep a : String) :
    ∀ ps : List String, ps ≠ [] →
      joinSep sep (ps ++ [a]) = joinSep sep ps ++ sep ++ a := by
  intro ps
  induction ps with
  | nil => intro h; exact absurd rfl h
  | cons p t ih =>
    intro _
    cases t with
    | nil => rfl
    | cons q u =>
      have hrec := ih (by simp)
      show p ++ sep ++ joinSep sep ((q :: u) ++ [a]) =
        p ++ sep ++ joinSep sep (q :: u) ++ sep ++ a
      rw [hrec]
      simp [String.append_assoc]

theorem find?_filter_of_ne {α : Type} (l : List (String × α))
    (bad key : String) (h : key ≠ bad) :
    (l.filter (fun p => !(p.1 == bad))).find? (fun p => p.1 == key) =
      l.find? (fun p => p.1 == key) := by
  induction l with
  | nil => rfl
  | cons a t ih =>
    rw [List.filter_cons]
    cases hbad : (a.1 == bad) with
    | false =>
      rw [if_pos (by rfl), List.find?_cons, List.find?_cons]
      cases hkey : (a.1 == key) with
      | false => simpa [hkey] using ih
      | true => simp [hkey]
    | true =>
      rw [if_neg (by simp), List.find?_cons]
      have hkey : (a.1 == key) = false := by
        rw [beq_iff_eq] at hbad
        rw [beq_eq_false_iff_ne, hbad]
        exact fun hc => h hc.symm
      rw [hkey]
      simpa using ih

theorem fdGet_filter_ne (data : List (String × String)) {key : String}
    (h : key ≠ "hidden") :
    fdGet (data.filter (fun p => !(p.1 == "hidden"))) key =
      fdGet data key := by
  rw [fdGet, fdGet, find?_filter_of_ne data "hidden" key h]

theorem fdGet_filter_hidden (data : List (String × String)) :
    fdGet (data.filter (fun p => !(p.1 == "hidden"))) "hidden" = none := by
  rw [fdGet, Option.map_eq_none']
  rw [List.find?_eq_none]
  intro p hp
  rw [List.mem_filter] at hp
  simpa using hp.2

/-! ### Claim theorems -/

/-- C6: for every grid, `drawBarcode` with `borderMm = 0` fails with
`InvalidParameter ("Value out of range")`, with `borderMm = -1` fails
with the same error, and with `borderMm = 5` succeeds. -/
theorem drawBarcode_border_precondition :
    (∀ qr : ModuleGrid, drawBarcode qr 0 =
      Except.error (Err.InvalidParameter "Value out of range")) ∧
    (∀ qr : ModuleGrid, drawBarcode qr (-1) =
      Except.error (Err.InvalidParameter "Value out of range")) ∧
    (∀ qr : ModuleGrid, (drawBarcode qr 5).isOk = true) := by
  refine ⟨fun qr => ?_, fun qr => ?_, fun qr => ?_⟩
  · rw [drawBarcode, drawBarcodeWith, if_pos le_rfl]
  · rw [drawBarcode, drawBarcodeWith, if_pos (by norm_num)]
  · rw [drawBarcode, drawBarcodeWith, if_neg (by norm_num)]
    rfl

/-- C7 counterexample: a build call with a zero-size grid does NOT fail
— it succeeds and produces the base plate, contradicting the claim that
it fails with `InvalidParameter` and never produces solids. -/
theorem drawBarcode_zero_grid_succeeds :
    drawBarcode { size := 0, getModule := fun _ _ => false } 5 =
      Except.ok [{ cx := 0, cy := 0, cz := -(5 / 2 : ℚ), w := 90, d := 90,
                   h := 5, tag := Tag.BasePlateLight }] := by
  norm_num [drawBarcode, drawBarcodeWith, moduleLoop, drawBarcodeBackground,
    barcodeSizeMm, baseThicknessMm, qrThicknessMm]

/-- C7 amended: `drawBarcode` validates only the border — a call fails
with an error exactly when `borderMm ≤ 0`; a non-positive footprint size
or a zero-size grid is not checked and does not cause a failure. -/
theorem drawBarcode_error_iff_border (fp th bth : ℚ) (qr : ModuleGrid)
    (border : ℚ) :
    (∃ e, drawBarcodeWith fp th bth qr border = Except.error e) ↔
      border ≤ 0 := by
  rw [drawBarcodeWith]
  by_cases h : border ≤ 0
  · simp [h]
  · simp [h]

/-- C8: whenever a build/redraw attempt fails — `InvalidParameter` from
the border precondition inside `drawBarcode`, or `EncodingFailed`
propagating out of the encoder in the submit handler — the installed
solid group is left unchanged. -/
theorem failed_redraw_leaves_scene (st : List Solid)
    (encoded : Except Err ModuleGrid) (qr : ModuleGrid) (border : ℚ)
    (e e' : Err) :
    ((submitStep st encoded).2 = some e → (submitStep st encoded).1 = st) ∧
    ((drawBarcodeStep st qr border).2 = some e' →
      (drawBarcodeStep st qr border).1 = st) := by
  constructor
  · intro hfail
    cases encoded with
    | error err => rfl
    | ok qr' =>
      have hred : submitStep st (Except.ok qr') =
          drawBarcodeStep st qr' qrBorderMm := rfl
      rw [hred] at hfail ⊢
      rw [drawBarcodeStep] at hfail ⊢
      by_cases hb : qrBorderMm ≤ 0
      · rw [if_pos hb]
      · rw [if_neg hb] at hfail
        exact absurd hfail (by simp)
  · intro hfail
    rw [drawBarcodeStep] at hfail ⊢
    by_cases hb : border ≤ 0
    · rw [if_pos hb]
    · rw [if_neg hb] at hfail
      exact absurd hfail (by simp)

/-- C8 witness: with one installed solid, a failing encode and a failing
`drawBarcode` both leave the installed group exactly as it was. -/
theorem failed_redraw_leaves_scene_witness :
    (submitStep [drawBarcodeBackground 90 90 5]
        (Except.error (Err.EncodingFailed "payload too long"))).2 =
      some (Err.EncodingFailed "payload too long") ∧
    (submitStep [drawBarcodeBackground 90 90 5]
        (Except.error (Err.EncodingFailed "payload too long"))).1 =
      [drawBarcodeBackground 90 90 5] ∧
    (drawBarcodeStep [drawBarcodeBackground 90 90 5]
        { size := 1, getModule := fun _ _ => true } 0).2 =
      some (Err.InvalidParameter "Value out of range") ∧
    (drawBarcodeStep [drawBarcodeBackground 90 90 5]
        { size := 1, getModule := fun _ _ => true } 0).1 =
      [drawBarcodeBackground 90 90 5] := by
  refine ⟨rfl, ?_, ?_, ?_⟩
  · exact (failed_redraw_leaves_scene [drawBarcodeBackground 90 90 5]
      (Except.error (Err.EncodingFailed "payload too long"))
      { size := 1, getModule := fun _ _ => true } 0
      (Err.EncodingFailed "payload too long")
      (Err.InvalidParameter "Value out of range")).1 rfl
  · rw [drawBarcodeStep, if_pos le_rfl]
  · exact (failed_redraw_leaves_scene [drawBarcodeBackground 90 90 5]
      (Except.error (Err.EncodingFailed "payload too long"))
      { size := 1, getModule := fun _ _ => true } 0
      (Err.EncodingFailed "payload too long")
      (Err.InvalidParameter "Value out of range")).2
      (by rw [drawBarcodeStep, if_pos le_rfl])

/-- C9: the payload assembler maps `ssid=Home, security=none` (hidden
absent) — and likewise with `security` absent — to exactly
`WIFI:S:Home`, and maps `ssid=Home, security=WPA, password=secret,
hidden=true` to exactly `WIFI:S:Home;T:WPA;P:secret;H:true`. -/
theorem getWifiEasyConnectUri_scenarios :
    getWifiEasyConnectUri [("ssid", "Home"), ("security", "none")] =
      "WIFI:S:Home" ∧
    getWifiEasyConnectUri [("ssid", "Home")] = "WIFI:S:Home" ∧
    getWifiEasyConnectUri [("ssid", "Home"), ("security", "WPA"),
        ("password", "secret"), ("hidden", "true")] =
      "WIFI:S:Home;T:WPA;P:secret;H:true" := by
  refine ⟨?_, ?_, ?_⟩ <;> rfl

theorem moduleLoop_tag {fp th : ℚ} {qr : ModuleGrid} {s : Solid}
    (hs : s ∈ moduleLoop fp th qr) : s.tag = Tag.ModuleDark := by
  rw [mem_moduleLoop] at hs
  obtain ⟨x, y, _, _, _, hs⟩ := hs
  rw [hs]
  rfl

theorem drawBarcodeWith_ok {fp th bth : ℚ} {qr : ModuleGrid} {border : ℚ}
    (hb : 0 < border) :
    drawBarcodeWith fp th bth qr border =
      Except.ok (moduleLoop fp th qr ++
        [drawBarcodeBackground (fp + border * 2) (fp + border * 2) bth]) := by
  rw [drawBarcodeWith, if_neg (not_le.mpr hb)]

/-- C2: every valid build call produces exactly one base-plate solid,
with footprint `(footprintSizeMm + 2*borderMm)` square, height
`baseThicknessMm`, centered at the origin in x/y with center z at
`-baseThicknessMm/2` (top face at z = 0). -/
theorem drawBarcode_base_plate (fp th bth : ℚ) (qr : ModuleGrid)
    (border : ℚ) (hb : 0 < border) :
    ∃ L, drawBarcodeWith fp th bth qr border = Except.ok L ∧
      L.filter (fun s => s.tag == Tag.BasePlateLight) =
        [{ cx := 0, cy := 0, cz := -(bth / 2), w := fp + 2 * border,
           d := fp + 2 * border, h := bth, tag := Tag.BasePlateLight }] := by
  refine ⟨_, drawBarcodeWith_ok hb, ?_⟩
  rw [List.filter_append]
  have h1 : (moduleLoop fp th qr).filter
      (fun s => s.tag == Tag.BasePlateLight) = [] := by
    rw [List.filter_eq_nil_iff]
    intro s hs
    rw [moduleLoop_tag hs]
    simp
  have hplate : drawBarcodeBackground (fp + border * 2) (fp + border * 2)
      bth =
      { cx := 0, cy := 0, cz := -(bth / 2), w := fp + 2 * border,
        d := fp + 2 * border, h := bth, tag := Tag.BasePlateLight } := by
    have h2 : fp + border * 2 = fp + 2 * border := by ring
    rw [drawBarcodeBackground, h2]
  rw [h1, List.nil_append, hplate]
  rfl

/-- C2 witness: with the source's constants (`footprintSizeMm = 80`,
`borderMm = 5`, `baseThicknessMm = 5`) the base plate is 90 × 90 × 5
centered at the origin with top face at z = 0. -/
theorem drawBarcode_base_plate_witness :
    (0 : ℚ) < 5 ∧
    (∃ L, drawBarcodeWith 80 2 5
        { size := 1, getModule := fun _ _ => true } 5 = Except.ok L ∧
      L.filter (fun s => s.tag == Tag.BasePlateLight) =
        [{ cx := 0, cy := 0, cz := -(5 / 2 : ℚ), w := 90, d := 90, h := 5,
           tag := Tag.BasePlateLight }]) := by
  constructor
  · norm_num
  · have h := drawBarcode_base_plate 80 2 5
      { size := 1, getModule := fun _ _ => true } 5 (by norm_num)
    norm_num at h
    exact h

/-- C1: for every true-valued module at `(x, y)`, the build produces
exactly one dark solid centered at
`cx = x*scale - footprintSizeMm/2 + scale/2`,
`cy = -(y*scale - footprintSizeMm/2 + scale/2)` with
`scale = footprintSizeMm / grid.size`, footprint `scale × scale`,
height `moduleThicknessMm` and center z at `moduleThicknessMm / 2`
(bottom face at 0, top face at `moduleThicknessMm`). -/
theorem drawBarcode_module_cube (fp th bth : ℚ) (qr : ModuleGrid)
    (border : ℚ) (x y : ℕ) (hfp : fp ≠ 0) (hb : 0 < border)
    (hx : x < qr.size) (hy : y < qr.size)
    (hm : qr.getModule x y = true) :
    ∃ L, drawBarcodeWith fp th bth qr border = Except.ok L ∧
      L.count
        { cx := (x : ℚ) * (fp / (qr.size : ℚ)) - fp / 2 +
            fp / (qr.size : ℚ) / 2,
          cy := -((y : ℚ) * (fp / (qr.size : ℚ)) - fp / 2 +
            fp / (qr.size : ℚ) / 2),
          cz := th / 2, w := fp / (qr.size : ℚ), d := fp / (qr.size : ℚ),
          h := th, tag := Tag.ModuleDark } = 1 := by
  have hsz : qr.size ≠ 0 := by omega
  have hszQ : (qr.size : ℚ) ≠ 0 := Nat.cast_ne_zero.mpr hsz
  have hB : (qr.size : ℚ) * (fp / (qr.size : ℚ)) = fp := by
    field_simp
  have hexp : mkModule fp th qr x y =
      { cx := (x : ℚ) * (fp / (qr.size : ℚ)) - fp / 2 +
          fp / (qr.size : ℚ) / 2,
        cy := -((y : ℚ) * (fp / (qr.size : ℚ)) - fp / 2 +
          fp / (qr.size : ℚ) / 2),
        cz := th / 2, w := fp / (qr.size : ℚ), d := fp / (qr.size : ℚ),
        h := th, tag := Tag.ModuleDark } := by
    rw [mkModule, drawBarcodeModule]
    simp only [hB]
  refine ⟨_, drawBarcodeWith_ok hb, ?_⟩
  rw [List.count_append, ← hexp]
  have hcnt1 : (moduleLoop fp th qr).count (mkModule fp th qr x y) = 1 := by
    refine List.count_eq_one_of_mem (moduleLoop_nodup hfp hsz) ?_
    rw [mem_moduleLoop]
    exact ⟨x, y, hx, hy, hm, rfl⟩
  have hcnt0 :
      ([drawBarcodeBackground (fp + border * 2) (fp + border * 2)
        bth] : List Solid).count (mkModule fp th qr x y) = 0 := by
    rw [List.count_singleton]
    have hne : (drawBarcodeBackground (fp + border * 2) (fp + border * 2)
        bth == mkModule fp th qr x y) = false := by
      rw [beq_eq_false_iff_ne]
      intro hc
      have htag := congrArg Solid.tag hc
      rw [hexp] at htag
      simp [drawBarcodeBackground] at htag
    rw [hne]
    simp
  rw [hcnt1, hcnt0]

/-- C1 witness: for the all-dark 1×1 grid at `(0, 0)` with
`footprintSizeMm = 80`, `moduleThicknessMm = 2`, `border = 5`, the
build output contains the claimed module cube exactly once. -/
theorem drawBarcode_module_cube_witness :
    ((80 : ℚ) ≠ 0 ∧ (0 : ℚ) < 5 ∧ 0 < 1 ∧
      ModuleGrid.getModule { size := 1, getModule := fun _ _ => true }
        0 0 = true) ∧
    (∃ L, drawBarcodeWith 80 2 5
        { size := 1, getModule := fun _ _ => true } 5 = Except.ok L ∧
      L.count
        { cx := (0 : ℚ) * (80 / 1) - 80 / 2 + 80 / 1 / 2,
          cy := -((0 : ℚ) * (80 / 1) - 80 / 2 + 80 / 1 / 2),
          cz := 2 / 2, w := 80 / 1, d := 80 / 1, h := 2,
          tag := Tag.ModuleDark } = 1) := by
  constructor
  · exact ⟨by norm_num, by norm_num, by norm_num, rfl⟩
  · have h := drawBarcode_module_cube 80 2 5
      { size := 1, getModule := fun _ _ => true } 5 0 0
      (by norm_num) (by norm_num) (by norm_num) (by norm_num) rfl
    simpa using h

/-- C3: for all valid inputs, the build succeeds and produces exactly
`(count of true modules) + 1` solids: one per true module enumerated in
row-major `(y, x)` order, plus the base plate added last. -/
theorem drawBarcode_solid_count_and_order (fp th bth : ℚ)
    (qr : ModuleGrid) (border : ℚ) (hfp : 0 < fp) (hb : 0 < border)
    (hsz : 0 < qr.size) :
    ∃ L, drawBarcodeWith fp th bth qr border = Except.ok L ∧
      L.length = trueCount qr + 1 ∧
      L = ((rowMajorPairs qr.size).filter
            (fun p => qr.getModule p.2 p.1)).map
            (fun p => mkModule fp th qr p.2 p.1) ++
          [drawBarcodeBackground (fp + border * 2) (fp + border * 2)
            bth] := by
  refine ⟨_, drawBarcodeWith_ok hb, ?_, ?_⟩
  · rw [List.length_append, moduleLoop_length]
    rfl
  · rw [moduleLoop_eq_rowMajor]

/-- C3 witness: the all-dark 1×1 grid yields 1 + 1 = 2 solids, module
first, base plate last. -/
theorem drawBarcode_solid_count_and_order_witness :
    ((0 : ℚ) < 80 ∧ (0 : ℚ) < 5 ∧ 0 < 1) ∧
    (∃ L, drawBarcodeWith 80 2 5
        { size := 1, getModule := fun _ _ => true } 5 = Except.ok L ∧
      L.length =
        trueCount { size := 1, getModule := fun _ _ => true } + 1 ∧
      L = ((rowMajorPairs 1).filter (fun _ => true)).map
            (fun p => mkModule 80 2
              { size := 1, getModule := fun _ _ => true } p.2 p.1) ++
          [drawBarcodeBackground (80 + 5 * 2) (80 + 5 * 2) 5]) := by
  constructor
  · exact ⟨by norm_num, by norm_num, by norm_num⟩
  · exact drawBarcode_solid_count_and_order 80 2 5
      { size := 1, getModule := fun _ _ => true } 5
      (by norm_num) (by norm_num) (by norm_num)

theorem one_le_abs_cast_sub {a b : ℕ} (h : a ≠ b) :
    (1 : ℚ) ≤ |(a : ℚ) - (b : ℚ)| := by
  have hz : ((a : ℤ) - (b : ℤ)) ≠ 0 := by
    rw [sub_ne_zero]
    exact_mod_cast h
  have h1 : (1 : ℤ) ≤ |(a : ℤ) - (b : ℤ)| := Int.one_le_abs hz
  calc (1 : ℚ) ≤ ((|(a : ℤ) - (b : ℤ)| : ℤ) : ℚ) := by exact_mod_cast h1
    _ = |(a : ℚ) - (b : ℚ)| := by push_cast; ring_nf

theorem mkModule_disjoint {fp th : ℚ} {qr : ModuleGrid} (hfp : 0 < fp)
    {x₁ y₁ x₂ y₂ : ℕ} (hx₁ : x₁ < qr.size)
    (hne : ¬(x₁ = x₂ ∧ y₁ = y₂)) :
    footprintDisjoint (mkModule fp th qr x₁ y₁)
      (mkModule fp th qr x₂ y₂) := by
  have hszQ : (0 : ℚ) < (qr.size : ℚ) := by exact_mod_cast by omega
  have hs : 0 < fp / (qr.size : ℚ) := div_pos hfp hszQ
  simp only [footprintDisjoint, mkModule, drawBarcodeModule]
  by_cases hxx : x₁ = x₂
  · have hyy : y₁ ≠ y₂ := fun hc => hne ⟨hxx, hc⟩
    right
    have hd : -((y₁ : ℚ) * (fp / (qr.size : ℚ)) -
          (qr.size : ℚ) * (fp / (qr.size : ℚ)) / 2 +
          fp / (qr.size : ℚ) / 2) -
        -((y₂ : ℚ) * (fp / (qr.size : ℚ)) -
          (qr.size : ℚ) * (fp / (qr.size : ℚ)) / 2 +
          fp / (qr.size : ℚ) / 2) =
        ((y₂ : ℚ) - (y₁ : ℚ)) * (fp / (qr.size : ℚ)) := by ring
    rw [hd, abs_mul, abs_of_pos hs]
    have h1 : (1 : ℚ) ≤ |(y₂ : ℚ) - (y₁ : ℚ)| := one_le_abs_cast_sub
      (fun hc => hyy hc.symm)
    have h2 : 1 * (fp / (qr.size : ℚ)) ≤
        |(y₂ : ℚ) - (y₁ : ℚ)| * (fp / (qr.size : ℚ)) :=
      mul_le_mul_of_nonneg_right h1 hs.le
    linarith
  · left
    have hd : (x₁ : ℚ) * (fp / (qr.size : ℚ)) -
          (qr.size : ℚ) * (fp / (qr.size : ℚ)) / 2 +
          fp / (qr.size : ℚ) / 2 -
        ((x₂ : ℚ) * (fp / (qr.size : ℚ)) -
          (qr.size : ℚ) * (fp / (qr.size : ℚ)) / 2 +
          fp / (qr.size : ℚ) / 2) =
        ((x₁ : ℚ) - (x₂ : ℚ)) * (fp / (qr.size : ℚ)) := by ring
    rw [hd, abs_mul, abs_of_pos hs]
    have h1 : (1 : ℚ) ≤ |(x₁ : ℚ) - (x₂ : ℚ)| := one_le_abs_cast_sub hxx
    have h2 : 1 * (fp / (qr.size : ℚ)) ≤
        |(x₁ : ℚ) - (x₂ : ℚ)| * (fp / (qr.size : ℚ)) :=
      mul_le_mul_of_nonneg_right h1 hs.le
    linarith

theorem mkModule_within {fp th bth border : ℚ} {qr : ModuleGrid}
    (hfp : 0 < fp) (hb : 0 < border) {x y : ℕ}
    (hx : x < qr.size) (hy : y < qr.size) :
    footprintWithin (mkModule fp th qr x y)
      (drawBarcodeBackground (fp + border * 2) (fp + border * 2) bth) := by
  have hszQ : (0 : ℚ) < (qr.size : ℚ) := by exact_mod_cast by omega
  have hs : 0 < fp / (qr.size : ℚ) := div_pos hfp hszQ
  have hB : (qr.size : ℚ) * (fp / (qr.size : ℚ)) = fp := by field_simp
  have hxs : 0 ≤ (x : ℚ) * (fp / (qr.size : ℚ)) :=
    mul_nonneg (by positivity) hs.le
  have hys : 0 ≤ (y : ℚ) * (fp / (qr.size : ℚ)) :=
    mul_nonneg (by positivity) hs.le
  have hx1 : (x : ℚ) * (fp / (qr.size : ℚ)) + fp / (qr.size : ℚ) ≤ fp := by
    have hle : (x : ℚ) + 1 ≤ (qr.size : ℚ) := by exact_mod_cast hx
    have hm := mul_le_mul_of_nonneg_right hle hs.le
    calc (x : ℚ) * (fp / (qr.size : ℚ)) + fp / (qr.size : ℚ)
        = ((x : ℚ) + 1) * (fp / (qr.size : ℚ)) := by ring
      _ ≤ (qr.size : ℚ) * (fp / (qr.size : ℚ)) := hm
      _ = fp := hB
  have hy1 : (y : ℚ) * (fp / (qr.size : ℚ)) + fp / (qr.size : ℚ) ≤ fp := by
    have hle : (y : ℚ) + 1 ≤ (qr.size : ℚ) := by exact_mod_cast hy
    have hm := mul_le_mul_of_nonneg_right hle hs.le
    calc (y : ℚ) * (fp / (qr.size : ℚ)) + fp / (qr.size : ℚ)
        = ((y : ℚ) + 1) * (fp / (qr.size : ℚ)) := by ring
      _ ≤ (qr.size : ℚ) * (fp / (qr.size : ℚ)) := hm
      _ = fp := hB
  simp only [footprintWithin, mkModule, drawBarcodeModule,
    drawBarcodeBackground, hB]
  refine ⟨by linarith, by linarith, by linarith, by linarith⟩

/-- C5: for every valid build call, no two module solids' footprints
overlap volumetrically (adjacent solids may share edges), and every
module solid's footprint lies entirely within the base plate's
footprint. -/
theorem drawBarcode_modules_disjoint_within (fp th bth : ℚ)
    (qr : ModuleGrid) (border : ℚ) (hfp : 0 < fp) (hb : 0 < border) :
    ∃ L, drawBarcodeWith fp th bth qr border = Except.ok L ∧
      List.Pairwise footprintDisjoint
        (L.filter (fun s => s.tag == Tag.ModuleDark)) ∧
      ∀ s ∈ L, s.tag = Tag.ModuleDark →
        footprintWithin s
          (drawBarcodeBackground (fp + border * 2) (fp + border * 2)
            bth) := by
  refine ⟨_, drawBarcodeWith_ok hb, ?_, ?_⟩
  · have hfilter : (moduleLoop fp th qr ++
        [drawBarcodeBackground (fp + border * 2) (fp + border * 2)
          bth]).filter (fun s => s.tag == Tag.ModuleDark) =
        moduleLoop fp th qr := by
      rw [List.filter_append]
      have h2 : ([drawBarcodeBackground (fp + border * 2)
          (fp + border * 2) bth] : List Solid).filter
          (fun s => s.tag == Tag.ModuleDark) = [] := rfl
      rw [h2, List.append_nil, List.filter_eq_self]
      intro s hs
      rw [moduleLoop_tag hs]
      rfl
    rw [hfilter]
    exact moduleLoop_pairwise
      (fun x₁ y₁ x₂ y₂ hx₁ _ _ _ hne => mkModule_disjoint hfp hx₁ hne)
  · intro s hs htag
    rw [List.mem_append] at hs
    rcases hs with hs | hs
    · rw [mem_moduleLoop] at hs
      obtain ⟨x, y, hx, hy, _, hseq⟩ := hs
      rw [hseq]
      exact mkModule_within hfp hb hx hy
    · rw [List.mem_singleton] at hs
      rw [hs] at htag
      exact absurd htag (by simp [drawBarcodeBackground])

/-- C5 witness: for the all-dark 2×2 grid the four module cubes are
pairwise footprint-disjoint and all lie within the 90 × 90 base
plate. -/
theorem drawBarcode_modules_disjoint_within_witness :
    ((0 : ℚ) < 80 ∧ (0 : ℚ) < 5) ∧
    (∃ L, drawBarcodeWith 80 2 5
        { size := 2, getModule := fun _ _ => true } 5 = Except.ok L ∧
      List.Pairwise footprintDisjoint
        (L.filter (fun s => s.tag == Tag.ModuleDark)) ∧
      ∀ s ∈ L, s.tag = Tag.ModuleDark →
        footprintWithin s
          (drawBarcodeBackground (80 + 5 * 2) (80 + 5 * 2) 5)) := by
  constructor
  · exact ⟨by norm_num, by norm_num⟩
  · exact drawBarcode_modules_disjoint_within 80 2 5
      { size := 2, getModule := fun _ _ => true } 5
      (by norm_num) (by norm_num)

/-- C4: for every scene and every 4-byte float encoding, the binary STL
stream is `84 + 50 × triangleCount` bytes long with
`triangleCount = 12 × numberOfSolids`, and the 4-byte little-endian
count stored at offset 80 equals the number of 50-byte triangle records
that follow the 84-byte prefix. -/
theorem exportSTL_byte_layout (enc : ℚ → List ℕ) (solids : List Solid)
    (henc : ∀ q, (enc q).length = 4)
    (hcount : 12 * solids.length < 2 ^ 32) :
    (exportSTL enc solids).length = 84 + 50 * (12 * solids.length) ∧
    leDecode (((exportSTL enc solids).drop 80).take 4) =
      12 * solids.length ∧
    ((exportSTL enc solids).drop 84).length =
      50 * (12 * solids.length) := by
  have htris : (solids.flatMap solidTriangles).length = 12 * solids.length :=
    flatMap_solidTriangles_length solids
  have hrecs : ((solids.flatMap solidTriangles).flatMap
      (triangleBytes enc)).length = 50 * (12 * solids.length) := by
    rw [flatMap_triangleBytes_length henc, htris]
  have htotal : (exportSTL enc solids).length =
      84 + 50 * (12 * solids.length) := by
    rw [exportSTL]
    simp only [List.length_append, List.length_replicate, leBytes_length,
      hrecs]
  refine ⟨htotal, ?_, ?_⟩
  · have hdrop : (exportSTL enc solids).drop 80 =
        leBytes 4 (solids.flatMap solidTriangles).length ++
          (solids.flatMap solidTriangles).flatMap (triangleBytes enc) := by
      rw [exportSTL, List.append_assoc]
      rw [List.drop_append_of_le_length (by simp)]
      simp
    rw [hdrop, List.take_append_of_le_length (by rw [leBytes_length]),
      List.take_of_length_le (by rw [leBytes_length]), leDecode_leBytes,
      htris]
    exact Nat.mod_eq_of_lt hcount
  · rw [List.length_drop, htotal]
    omega

/-- C4 witness: one solid, a fixed 4-byte encoding — 684 bytes total,
count field decodes to 12, and 600 record bytes follow. -/
theorem exportSTL_byte_layout_witness :
    ((∀ q : ℚ, ((fun _ => [0, 0, 0, 0] : ℚ → List ℕ) q).length = 4) ∧
      12 * ([drawBarcodeBackground 90 90 5].length) < 2 ^ 32) ∧
    ((exportSTL (fun _ => [0, 0, 0, 0])
        [drawBarcodeBackground 90 90 5]).length = 684 ∧
      leDecode (((exportSTL (fun _ => [0, 0, 0, 0])
        [drawBarcodeBackground 90 90 5]).drop 80).take 4) = 12 ∧
      ((exportSTL (fun _ => [0, 0, 0, 0])
        [drawBarcodeBackground 90 90 5]).drop 84).length = 600) := by
  constructor
  · exact ⟨fun _ => rfl, by norm_num⟩
  · have h := exportSTL_byte_layout (fun _ => [0, 0, 0, 0])
      [drawBarcodeBackground 90 90 5] (fun _ => rfl) (by norm_num)
    simpa using h

/-- C10: the hidden segment is appended exactly when the `hidden` entry
is present with a truthy (non-null, non-empty) value, the appended text
is always the literal `H:true` regardless of the entry's content, and in
particular `hidden = "false"` still produces a URI ending in `;H:true`. -/
theorem getWifiEasyConnectUri_hidden :
    (∀ data : List (String × String),
      getWifiEasyConnectUri data =
        getWifiEasyConnectUri
          (data.filter (fun p => !(p.1 == "hidden"))) ++
          (if jsTruthy (fdGet data "hidden") then ";H:true" else "")) ∧
    getWifiEasyConnectUri [("ssid", "Home"), ("hidden", "false")] =
      "WIFI:S:Home;H:true" := by
  constructor
  · intro data
    have hsid : fdGet (data.filter fun p => !(p.1 == "hidden")) "ssid" =
        fdGet data "ssid" := fdGet_filter_ne data (by decide)
    have hsec : fdGet (data.filter fun p => !(p.1 == "hidden"))
        "security" = fdGet data "security" :=
      fdGet_filter_ne data (by decide)
    have hpw : fdGet (data.filter fun p => !(p.1 == "hidden"))
        "password" = fdGet data "password" :=
      fdGet_filter_ne data (by decide)
    have hh := fdGet_filter_hidden data
    simp only [getWifiEasyConnectUri, hsid, hsec, hpw, hh]
    have hfalse : jsTruthy none = false := rfl
    rw [hfalse, if_neg Bool.false_ne_true]
    rcases hfd : fdGet data "hidden" with _ | v
    · rw [hfalse, if_neg Bool.false_ne_true, if_neg Bool.false_ne_true,
        String.append_empty]
    · by_cases hv : v = ""
      · subst hv
        have h1 : jsTruthy (some "") = false := rfl
        rw [h1, if_neg Bool.false_ne_true, if_neg Bool.false_ne_true,
          String.append_empty]
      · have htr : jsTruthy (some v) = true := by simp [jsTruthy, hv]
        rw [htr, if_pos rfl]
        have hne : (if jsOrNone (fdGet data "security") ≠ "none" then
            ["S:" ++ jsTemplate (fdGet data "ssid")] ++
              ["T:" ++ jsTemplate (fdGet data "security"),
               "P:" ++ jsTemplate (fdGet data "password")]
          else ["S:" ++ jsTemplate (fdGet data "ssid")]) ≠ [] := by
          split <;> simp
        rw [joinSep_append_singleton ";" "H:true" _ hne]
        have hlit : ";" ++ "H:true" = ";H:true" := rfl
        simp [String.append_assoc, hlit]
  · rfl
